import Mathlib

/-!
Shallow embedding of the session/resource lifecycle manager of the
Playwright MCP server (src/server.js, the variant spanning the session
registry, resolver, dispatch handlers and maintenance code).

Modelling conventions:
* The JavaScript `Map` of sessions is a list of key/value pairs in
  insertion order (JS Map iteration order); `set` on an existing key
  keeps its position, `delete` removes it, fresh `set` appends.
* Clock values (`Date.now()`) are natural numbers passed explicitly.
* A session object identity is a natural number `sid` drawn from a
  counter, so that distinct created browsing contexts are distinguishable.
* External engine effects (page liveness probes, context close outcomes,
  page actions) are oracles passed as function or `Except` arguments.
* The asynchronous close-then-delete continuations inside
  `cleanupExpiredSessions` are modelled as having completed before the
  registry is next consulted: the sweep is applied as its eventual
  registry effect.
-/

/-- A registry entry: identity of the owned browsing context/page pair
(`sid`) and the last-used clock value, as stored in `sessions`. -/
structure Session where
  sid : Nat
  lastUsed : Nat
deriving Repr, DecidableEq

/-- The `sessions` JS `Map`, in insertion order. -/
abbrev Registry := List (String × Session)

/-- `sessions.get(k)` : first entry with key `k`. -/
def mapGet (m : Registry) (k : String) : Option Session :=
  (m.find? (fun p => p.1 == k)).map (fun p => p.2)

/-- `sessions.has(k)`. -/
def mapHas (m : Registry) (k : String) : Bool :=
  (m.find? (fun p => p.1 == k)).isSome

/-- `sessions.set(k, v)` : replace in place when the key is present,
else append (JS Map insertion-order semantics). -/
def mapSet : Registry → String → Session → Registry
  | [], k, v => [(k, v)]
  | p :: rest, k, v => if p.1 == k then (k, v) :: rest else p :: mapSet rest k v

/-- `sessions.delete(k)`. -/
def mapDelete (m : Registry) (k : String) : Registry :=
  m.filter (fun p => !(p.1 == k))

/-- JavaScript truthiness of an optional string argument: present and
nonempty. -/
def strTruthy : Option String → Bool
  | none => false
  | some s => !(s == "")

/-- The argument fields of a tool call that the session key resolver
inspects (`args.sessionId`, `args.url`). -/
structure ToolArgs where
  sessionId : Option String := none
  url : Option String := none
deriving Repr

/-- The regex replacement in `getSessionId`:
`hostname.replace(/[^a-zA-Z0-9]/g, '_')`. -/
def sanitizeDomain (h : String) : String :=
  ⟨h.data.map (fun c =>
    if ('a' ≤ c ∧ c ≤ 'z') ∨ ('A' ≤ c ∧ c ≤ 'Z') ∨ ('0' ≤ c ∧ c ≤ '9') then c
    else '_')⟩

/-- Split a character list at the first occurrence of the literal
substring "://", returning the part before and the part after. -/
def splitScheme : List Char → Option (List Char × List Char)
  | ':' :: '/' :: '/' :: rest => some ([], rest)
  | c :: rest => (splitScheme rest).map (fun p => (c :: p.1, p.2))
  | [] => none

/-- Modelled external collaborator: success/failure and hostname
extraction of the WHATWG URL constructor (`new URL(url).hostname`), a
JS builtin not part of this repository. A string parses when it has the
shape `scheme://host...` with a nonempty alphabetic scheme and a
nonempty host component; otherwise the constructor throws, modelled as
`none`. -/
def parseHostname (url : String) : Option String :=
  match splitScheme url.data with
  | some (scheme, rest) =>
    if scheme ≠ [] ∧ scheme.all Char.isAlpha then
      let host := rest.takeWhile (fun c => c ≠ '/' ∧ c ≠ ':' ∧ c ≠ '?' ∧ c ≠ '#')
      if host = [] then none else some ⟨host⟩
    else none
  | none => none

/-- `getSessionId(args, toolName)` from src/server.js: explicit key if
truthy; else `auto_<sanitized hostname>` for navigation-class tools with
a truthy `url` (falling back to `"default"` when the URL constructor
throws); else reuse the single session, or `"default"` when none exist,
or mint `"default_" + Date.now()` when several exist. -/
def getSessionId (args : ToolArgs) (toolName : String) (sessions : Registry)
    (now : Nat) : String :=
  if strTruthy args.sessionId then args.sessionId.getD ""
  else if strTruthy args.url &&
      (toolName == "navigate_to_url" || toolName == "extract_housesigma_chart") then
    match parseHostname (args.url.getD "") with
    | some host => "auto_" ++ sanitizeDomain host
    | none => "default"
  else if sessions.length == 0 then "default"
  else if sessions.length == 1 then
    match sessions.head? with
    | some p => p.1
    | none => "default"
  else "default_" ++ toString now

/-- The `SESSION_TIMEOUTS` object literal: per-key idle timeouts in
milliseconds. -/
def SESSION_TIMEOUTS : String → Option Nat
  | "auto_www_onland_ca" => some (3 * 60 * 1000)
  | "auto_housesigma_com" => some (8 * 60 * 1000)
  | "auto_www_torontomls_net" => some (10 * 60 * 1000)
  | "default" => some (5 * 60 * 1000)
  | _ => none

/-- `SESSION_TIMEOUTS[sessionId] || SESSION_TIMEOUTS['default']`. -/
def sessionTimeout (k : String) : Nat :=
  (SESSION_TIMEOUTS k).getD (5 * 60 * 1000)

/-- The sweep condition `now - session.lastUsed > timeout`. -/
def isExpired (now : Nat) (k : String) (s : Session) : Bool :=
  decide (sessionTimeout k < now - s.lastUsed)

/-- Registry effect of `cleanupExpiredSessions()`: every expired entry is
removed; the entry is deleted whether or not `context.close()` fails
(the close failure is caught and only logged, the delete is outside the
try block). -/
def cleanupExpiredSessions (m : Registry) (now : Nat) : Registry :=
  m.filter (fun p => !isExpired now p.1 p.2)

def MAX_SESSIONS : Nat := 3

/-- The oldest-session scan of `enforceSessionLimits`: iterate entries in
insertion order with `oldestTime` starting at `Date.now()`, keeping the
key of each entry whose `lastUsed` is strictly below the best so far. -/
def findOldestAux : Registry → Option String → Nat → Option String
  | [], acc, _ => acc
  | (k, s) :: rest, acc, t =>
    if s.lastUsed < t then findOldestAux rest (some k) s.lastUsed
    else findOldestAux rest acc t

def findOldest (m : Registry) (now : Nat) : Option String :=
  findOldestAux m none now

/-- `enforceSessionLimits()`: at or above `MAX_SESSIONS`, delete the
scanned oldest session when one was found (close failures are caught and
only logged; the delete is outside the try block). -/
def enforceSessionLimits (m : Registry) (now : Nat) : Registry :=
  if MAX_SESSIONS ≤ m.length then
    match findOldest m now with
    | some k => mapDelete m k
    | none => m
  else m

/-- The mutable state touched by `getSessionContext`: the `sessions` map
and a counter supplying identities for freshly created context/page
pairs. -/
structure RegState where
  sessions : Registry
  nextSid : Nat
deriving Repr, DecidableEq

/-- The create path of `getSessionContext` after the existence check:
enforce limits, create a context/page pair, store it under the key with
`lastUsed = Date.now()`. -/
def createNewSession (sessionId : String) (now : Nat) (st : RegState) :
    Session × RegState :=
  let m := enforceSessionLimits st.sessions now
  let s : Session := ⟨st.nextSid, now⟩
  (s, ⟨mapSet m sessionId s, st.nextSid + 1⟩)

/-- `getSessionContext(sessionId)`: sweep expired sessions, then reuse
the stored session when present and its `page.evaluate` probe succeeds
(updating `lastUsed`), else delete the dead entry and fall through to
the create path. `probeAlive` is the external liveness probe oracle,
indexed by session identity. -/
def getSessionContext (sessionId : String) (now : Nat)
    (probeAlive : Nat → Bool) (st : RegState) : Session × RegState :=
  let m := cleanupExpiredSessions st.sessions now
  match mapGet m sessionId with
  | some s =>
    if probeAlive s.sid then
      let s' : Session := ⟨s.sid, now⟩
      (s', ⟨mapSet m sessionId s', st.nextSid⟩)
    else
      createNewSession sessionId now ⟨mapDelete m sessionId, st.nextSid⟩
  | none => createNewSession sessionId now ⟨m, st.nextSid⟩

/-- Server state touched by the `cleanup_resources` handler: the session
map, whether the shared browser instance is live, and the log of session
identities whose `context.close()` was attempted (successfully or not). -/
structure SrvState where
  sessions : Registry
  browserLive : Bool
  closed : List Nat
deriving Repr, DecidableEq

/-- `forceCleanupAll()`: attempt to close every session context (failures
are caught per promise and only logged), clear the whole map, then close
the browser, nulling the reference even when the close fails. -/
def forceCleanupAll (st : SrvState) : SrvState :=
  ⟨[], false, st.closed ++ st.sessions.map (fun p => p.2.sid)⟩

/-- The `cleanup_resources` branch of the tool-call handler: when
`args.sessionId` is truthy and names a live entry, close that context and
delete the entry, both inside one try block whose failures are only
logged; otherwise fall back to `forceCleanupAll()`. Either way the
response text reports success. `closeFails` is the external oracle saying
whether closing a given context throws. -/
def cleanupResourcesTool (argSessionId : Option String) (closeFails : Nat → Bool)
    (st : SrvState) : SrvState × String :=
  if strTruthy argSessionId && mapHas st.sessions (argSessionId.getD "") then
    match mapGet st.sessions (argSessionId.getD "") with
    | some s =>
      if closeFails s.sid then
        ({ st with closed := st.closed ++ [s.sid] },
          "Browser resources cleaned up successfully")
      else
        (⟨mapDelete st.sessions (argSessionId.getD ""), st.browserLive,
            st.closed ++ [s.sid]⟩,
          "Browser resources cleaned up successfully")
    | none => (st, "Browser resources cleaned up successfully")
  else
    (forceCleanupAll st, "Browser resources cleaned up successfully")

/-- Result shape of `extractHouseSigmaChartData`, keyed by the boolean
`success` field of the returned object. -/
inductive ExtractResult (α : Type) where
  | success (chartData : α)
  | failure (error : String)
deriving Repr, DecidableEq

def ExtractResult.isSuccess {α : Type} : ExtractResult α → Bool
  | .success _ => true
  | .failure _ => false

/-- Result shaping of `extractHouseSigmaChartData(page, url)`. `captured`
is the list of chart API responses accumulated by the page response
listener during navigation and the optional login attempt; `engineFault`
is the message of an engine-level exception thrown inside the try block,
if any. With no fault, the function returns success with the latest
captured payload when at least one response was captured, and otherwise
an explicit failure object. -/
def extractHouseSigmaChartData {α : Type} (captured : List α)
    (engineFault : Option String) : ExtractResult α :=
  match engineFault with
  | some msg => .failure msg
  | none =>
    match captured.getLast? with
    | some latest => .success latest
    | none => .failure "No chart API data was captured"

/-- A JSON-RPC error object `{ code, message }`. -/
structure JsonRpcError where
  code : Int
  message : String
deriving Repr, DecidableEq

/-- A JSON-RPC response envelope: exactly one of `result` and `error` is
populated by the HTTP handler. -/
structure JsonRpcResponse where
  id : Nat
  result : Option String
  error : Option JsonRpcError
deriving Repr, DecidableEq

/-- Result shaping of the stdio `CallToolRequestSchema` handler.
`sessionAcq` is the outcome of `getSessionContext` (outside the try
block), `action` the outcome of the switch case executing the page
action (the external collaborator). `Except.error` models an exception
propagating out of the handler into the MCP SDK transport layer: the
catch block wraps the message and rethrows. -/
def callToolPipe (name : String) (sessionAcq : Except String Unit)
    (action : Except String String) : Except String String :=
  if name == "cleanup_resources" then
    .ok "Browser resources cleaned up successfully"
  else
    match sessionAcq with
    | .error msg => .error msg
    | .ok _ =>
      match action with
      | .ok out => .ok out
      | .error msg => .error ("Tool execution failed: " ++ msg)

/-- Result shaping of the HTTP `tools/call` path: the inner catch turns
an action failure into a JSON-RPC error envelope; a session-acquisition
failure escapes to the outer catch, which also answers with a JSON-RPC
error envelope (internal error). In both cases exactly one envelope is
written. -/
def callToolHttp (name : String) (sessionAcq : Except String Unit)
    (action : Except String String) (id : Nat) : JsonRpcResponse :=
  if name == "cleanup_resources" then
    ⟨id, some "Browser resources cleaned up successfully", none⟩
  else
    match sessionAcq with
    | .error msg => ⟨id, none, some ⟨-32603, "Internal error: " ++ msg⟩⟩
    | .ok _ =>
      match action with
      | .ok out => ⟨id, some out, none⟩
      | .error msg => ⟨id, none, some ⟨-32603, "Tool execution failed: " ++ msg⟩⟩

/-- Program counter of one logical caller running `getSessionContext`.
The await points inside the create path (`ensureBrowser`,
`browser.newContext`, `context.newPage`) let other callers run between
the synchronous existence check and the later `sessions.set`; `checked`
is the state of a caller suspended inside that window. -/
inductive TPC where
  | start
  | checked
  | done (s : Session)
deriving Repr, DecidableEq

/-- One scheduling step of a caller executing `getSessionContext key`:
from `start`, run the synchronous prefix (sweep, existence check and, on
the create path, limit enforcement) and either finish on the reuse path
or suspend at the first await of the create path; from `checked`, resume
after the awaited context/page creation and publish the new session. -/
def threadStep (key : String) (now : Nat) (probeAlive : Nat → Bool)
    (st : RegState) (pc : TPC) : RegState × TPC :=
  match pc with
  | .start =>
    let m := cleanupExpiredSessions st.sessions now
    match mapGet m key with
    | some s =>
      if probeAlive s.sid then
        let s' : Session := ⟨s.sid, now⟩
        (⟨mapSet m key s', st.nextSid⟩, .done s')
      else
        (⟨enforceSessionLimits (mapDelete m key) now, st.nextSid⟩, .checked)
    | none => (⟨enforceSessionLimits m now, st.nextSid⟩, .checked)
  | .checked =>
    let s : Session := ⟨st.nextSid, now⟩
    (⟨mapSet st.sessions key s, st.nextSid + 1⟩, .done s)
  | .done s => (st, .done s)

/-- Shared state plus the program counters of two concurrent callers. -/
structure CState where
  reg : RegState
  pc1 : TPC
  pc2 : TPC
deriving Repr, DecidableEq

inductive Tid where
  | one
  | two
deriving Repr, DecidableEq

/-- Run the designated caller for one step. -/
def schedStep (key : String) (now : Nat) (probeAlive : Nat → Bool)
    (c : CState) : Tid → CState
  | .one =>
    let r := threadStep key now probeAlive c.reg c.pc1
    ⟨r.1, r.2, c.pc2⟩
  | .two =>
    let r := threadStep key now probeAlive c.reg c.pc2
    ⟨r.1, c.pc1, r.2⟩

/-- Run a schedule, an interleaving of the two callers. -/
def runSched (key : String) (now : Nat) (probeAlive : Nat → Bool)
    (c : CState) : List Tid → CState
  | [] => c
  | t :: rest => runSched key now probeAlive (schedStep key now probeAlive c t) rest

/-- The registry invariant that keys are pairwise distinct (a JS `Map`
holds at most one entry per key). -/
def keysNodup (m : Registry) : Prop := (m.map Prod.fst).Nodup

theorem string_append_cancel_left {a b c : String} (h : a ++ b = a ++ c) : b = c :=
  String.ext (List.append_cancel_left (congrArg String.data h))

theorem mapHas_of_mem {m : Registry} {k : String} {s : Session}
    (h : (k, s) ∈ m) : mapHas m k = true := by
  unfold mapHas
  rw [List.find?_isSome]
  exact ⟨(k, s), h, by simp⟩

theorem mapHas_false_iff {m : Registry} {k : String} :
    mapHas m k = false ↔ ∀ p ∈ m, p.1 ≠ k := by
  unfold mapHas
  constructor
  · intro h p hp hk
    have hs : (m.find? (fun p => p.1 == k)).isSome = true :=
      List.find?_isSome.mpr ⟨p, hp, by simp [hk]⟩
    rw [h] at hs
    exact Bool.false_ne_true hs
  · intro h
    have hn : m.find? (fun p => p.1 == k) = none :=
      List.find?_eq_none.mpr (fun p hp => by simp [h p hp])
    rw [hn]
    rfl

theorem mapGet_eq_none_of_not_has {m : Registry} {k : String}
    (h : mapHas m k = false) : mapGet m k = none := by
  unfold mapHas at h
  unfold mapGet
  cases hf : m.find? (fun p => p.1 == k) with
  | none => rfl
  | some p => rw [hf] at h; simp at h

theorem mapHas_filter_false {m : Registry} {k : String}
    {pfn : String × Session → Bool} (h : mapHas m k = false) :
    mapHas (m.filter pfn) k = false :=
  mapHas_false_iff.mpr
    (fun p hp => (mapHas_false_iff.mp h) p (List.mem_filter.mp hp).1)

theorem mapGet_mapSet_self (m : Registry) (k : String) (v : Session) :
    mapGet (mapSet m k v) k = some v := by
  induction m with
  | nil => simp [mapSet, mapGet, List.find?]
  | cons p rest ih =>
    cases hq : (p.1 == k) with
    | true => simp [mapSet, hq, mapGet, List.find?]
    | false =>
      simp only [mapSet, hq, Bool.false_eq_true, if_false]
      unfold mapGet at ih ⊢
      simp [List.find?_cons, hq, ih]

theorem mapSet_append_of_not_has {m : Registry} {k : String} (v : Session)
    (h : mapHas m k = false) : mapSet m k v = m ++ [(k, v)] := by
  induction m with
  | nil => rfl
  | cons p rest ih =>
    rw [mapHas_false_iff] at h
    have hp : p.1 ≠ k := h p (by simp)
    have hrest : mapHas rest k = false :=
      mapHas_false_iff.mpr (fun q hq => h q (by simp [hq]))
    simp [mapSet, beq_eq_false_iff_ne.mpr hp, ih hrest]

theorem cleanup_of_no_expired {m : Registry} {now : Nat}
    (h : ∀ p ∈ m, isExpired now p.1 p.2 = false) :
    cleanupExpiredSessions m now = m :=
  List.filter_eq_self.mpr (fun p hp => by simp [h p hp])

theorem findOldestAux_spec : ∀ (l : Registry) (acc : Option String) (t : Nat),
    (findOldestAux l acc t = acc ∧ ∀ p ∈ l, t ≤ p.2.lastUsed) ∨
    (∃ k s, (k, s) ∈ l ∧ findOldestAux l acc t = some k ∧ s.lastUsed < t ∧
      ∀ p ∈ l, s.lastUsed ≤ p.2.lastUsed)
  | [], acc, t => Or.inl ⟨rfl, by simp⟩
  | (k₀, s₀) :: rest, acc, t => by
    by_cases h : s₀.lastUsed < t
    · simp only [findOldestAux, if_pos h]
      rcases findOldestAux_spec rest (some k₀) s₀.lastUsed with
        ⟨heq, hall⟩ | ⟨k, s, hmem, heq, hlt, hall⟩
      · refine Or.inr ⟨k₀, s₀, by simp, heq, h, ?_⟩
        intro p hp
        rcases List.mem_cons.mp hp with rfl | hp
        · exact le_refl _
        · exact hall p hp
      · refine Or.inr ⟨k, s, List.mem_cons_of_mem _ hmem, heq, lt_trans hlt h, ?_⟩
        intro p hp
        rcases List.mem_cons.mp hp with rfl | hp
        · exact le_of_lt hlt
        · exact hall p hp
    · simp only [findOldestAux, if_neg h]
      rcases findOldestAux_spec rest acc t with
        ⟨heq, hall⟩ | ⟨k, s, hmem, heq, hlt, hall⟩
      · refine Or.inl ⟨heq, ?_⟩
        intro p hp
        rcases List.mem_cons.mp hp with rfl | hp
        · exact Nat.le_of_not_lt h
        · exact hall p hp
      · refine Or.inr ⟨k, s, List.mem_cons_of_mem _ hmem, heq, hlt, ?_⟩
        intro p hp
        rcases List.mem_cons.mp hp with rfl | hp
        · exact le_trans (le_of_lt hlt) (Nat.le_of_not_lt h)
        · exact hall p hp

theorem findOldest_eq_none {m : Registry} {now : Nat}
    (h : ∀ p ∈ m, now ≤ p.2.lastUsed) : findOldest m now = none := by
  rcases findOldestAux_spec m none now with ⟨heq, _⟩ | ⟨k, s, hmem, _, hlt, _⟩
  · exact heq
  · exact absurd hlt (Nat.not_lt.mpr (h (k, s) hmem))

theorem findOldest_min {m : Registry} {now : Nat} {p₀ : String × Session}
    (hmem₀ : p₀ ∈ m) (hlt₀ : p₀.2.lastUsed < now) :
    ∃ k s, (k, s) ∈ m ∧ findOldest m now = some k ∧ s.lastUsed < now ∧
      ∀ q ∈ m, s.lastUsed ≤ q.2.lastUsed := by
  rcases findOldestAux_spec m none now with ⟨_, hall⟩ | h
  · exact absurd hlt₀ (Nat.not_lt.mpr (hall p₀ hmem₀))
  · exact h

theorem mapDelete_length {m : Registry} {k : String}
    (hnd : keysNodup m) (h : mapHas m k = true) :
    (mapDelete m k).length + 1 = m.length := by
  induction m with
  | nil => simp [mapHas, List.find?] at h
  | cons p rest ih =>
    unfold keysNodup at hnd
    rw [List.map_cons, List.nodup_cons] at hnd
    obtain ⟨hpk, hrest⟩ := hnd
    cases hq : (p.1 == k) with
    | true =>
      have hp1 : p.1 = k := beq_iff_eq.mp hq
      have hall : ∀ q ∈ rest, q.1 ≠ k := by
        intro q hq2 hqk
        exact hpk (by rw [hp1, ← hqk]; exact List.mem_map_of_mem Prod.fst hq2)
      have hdel : mapDelete (p :: rest) k = rest := by
        unfold mapDelete
        rw [List.filter_cons_of_neg (by simp [hq])]
        exact List.filter_eq_self.mpr (fun q hq2 => by simp [hall q hq2])
      rw [hdel]
      simp
    | false =>
      have hstep : mapDelete (p :: rest) k = p :: mapDelete rest k := by
        unfold mapDelete
        rw [List.filter_cons_of_pos (by simp [hq])]
      have hrest' : mapHas rest k = true := by
        unfold mapHas at h ⊢
        rwa [List.find?_cons_of_neg _ (by simp [hq])] at h
      rw [hstep]
      simp only [List.length_cons]
      rw [ih hrest hrest']

theorem mapGet_filter {m : Registry} {k : String} {s : Session}
    {pfn : String × Session → Bool}
    (hget : mapGet m k = some s) (hpass : pfn (k, s) = true) :
    mapGet (m.filter pfn) k = some s := by
  induction m with
  | nil => simp [mapGet, List.find?] at hget
  | cons p rest ih =>
    cases hq : (p.1 == k) with
    | true =>
      have hp1 : p.1 = k := beq_iff_eq.mp hq
      have hp2 : p.2 = s := by
        simp only [mapGet, List.find?_cons, hq] at hget
        simpa using hget
      have hps : p = (k, s) := Prod.ext hp1 hp2
      rw [hps, List.filter_cons_of_pos hpass]
      simp [mapGet, List.find?_cons]
    | false =>
      have hget' : mapGet rest k = some s := by
        simp only [mapGet, List.find?_cons, hq] at hget
        exact hget
      cases hpf : pfn p with
      | true =>
        rw [List.filter_cons_of_pos hpf]
        simp only [mapGet, List.find?_cons, hq]
        exact ih hget'
      | false =>
        rw [List.filter_cons_of_neg (by simp [hpf])]
        exact ih hget'

/-- C10: for every navigation-class call with no explicit session key
whose truthy url argument cannot be parsed as a URL, `getSessionId`
returns the fixed fallback key "default" rather than raising an error or
minting an auto_ key. -/
theorem c10_unparseable_url_yields_default (sid : Option String) (url : String)
    (tool : String) (sessions : Registry) (now : Nat)
    (hsid : strTruthy sid = false) (hurl : url ≠ "")
    (hparse : parseHostname url = none)
    (htool : tool = "navigate_to_url" ∨ tool = "extract_housesigma_chart") :
    getSessionId ⟨sid, some url⟩ tool sessions now = "default" := by
  have hb : (url == "") = false := beq_eq_false_iff_ne.mpr hurl
  have hcond : (strTruthy (some url) &&
      (tool == "navigate_to_url" || tool == "extract_housesigma_chart")) = true := by
    rcases htool with rfl | rfl <;> simp [strTruthy, hb]
  simp [getSessionId, hsid, hcond, hparse]

/-- Witness for C10 at a concrete unparseable url, with one session in
the registry so the result visibly comes from the navigation branch. -/
theorem c10_witness :
    getSessionId ⟨none, some "not a url"⟩ "navigate_to_url" [("x", ⟨0, 0⟩)] 7 =
      "default" :=
  c10_unparseable_url_yields_default none "not a url" "navigate_to_url"
    [("x", ⟨0, 0⟩)] 7 rfl (by decide) (by decide) (Or.inl rfl)

/-- C9: for every `cleanup_resources` call whose sessionId argument is
falsy or does not name a key in the registry, the handler runs the full
teardown: every stored context has its close attempted, the registry is
cleared, the browser reference is released, and the response still
reports success. -/
theorem c9_full_teardown_on_absent_or_unknown_key (arg : Option String)
    (closeFails : Nat → Bool) (st : SrvState)
    (h : strTruthy arg = false ∨ mapHas st.sessions (arg.getD "") = false) :
    cleanupResourcesTool arg closeFails st =
      (⟨[], false, st.closed ++ st.sessions.map (fun p => p.2.sid)⟩,
        "Browser resources cleaned up successfully") := by
  have hcond : (strTruthy arg && mapHas st.sessions (arg.getD "")) = false := by
    rcases h with h | h <;> simp [h]
  simp [cleanupResourcesTool, hcond, forceCleanupAll]

/-- Witness for C9: absent sessionId on a registry of two sessions. -/
theorem c9_witness :
    cleanupResourcesTool none (fun _ => false)
        ⟨[("a", ⟨0, 0⟩), ("b", ⟨1, 1⟩)], true, []⟩ =
      (⟨[], false, [0, 1]⟩, "Browser resources cleaned up successfully") :=
  c9_full_teardown_on_absent_or_unknown_key none (fun _ => false)
    ⟨[("a", ⟨0, 0⟩), ("b", ⟨1, 1⟩)], true, []⟩ (Or.inl rfl)

/-- C3: the idle sweep keeps a session exactly when the age of its
lastUsed timestamp is within its class-specific timeout (so it removes
it exactly when the age exceeds the timeout), and the navigation-derived
classes targeting slow or authenticated sites (HouseSigma, which needs
auth, and TorontoMLS, which is complex, per the source comments) have
strictly longer configured timeouts than the ad-hoc fallback class. -/
theorem c3_idle_sweep_condition_and_timeouts :
    (∀ (m : Registry) (now : Nat) (k : String) (s : Session),
      (k, s) ∈ cleanupExpiredSessions m now ↔
        ((k, s) ∈ m ∧ now - s.lastUsed ≤ sessionTimeout k)) ∧
    sessionTimeout "default" < sessionTimeout "auto_housesigma_com" ∧
    sessionTimeout "default" < sessionTimeout "auto_www_torontomls_net" := by
  refine ⟨?_, by decide, by decide⟩
  intro m now k s
  simp [cleanupExpiredSessions, List.mem_filter, isExpired, Nat.not_lt]

/-- C1 counterexample: with two sessions, no explicit key and no target
address, the resolver at clock value 100 returns "default_100", which is
the key of a session already in the registry, so the minted key is not
fresh as the claim states. -/
theorem c1_counterexample :
    getSessionId ⟨none, none⟩ "get_page_content"
        [("default_100", ⟨0, 50⟩), ("other", ⟨1, 60⟩)] 100 = "default_100" ∧
    mapHas [("default_100", (⟨0, 50⟩ : Session)), ("other", ⟨1, 60⟩)]
        "default_100" = true := by
  decide

/-- C2 counterexample. First conjunct: at capacity with a fallback
session ("default", lastUsed 200), an ambiguity session ("default_5",
lastUsed 300) and a navigation session ("auto_a_com", lastUsed 100),
creating "auto_b_com" evicts the navigation session (the global LRU)
and keeps both lower-priority sessions, contradicting the claimed
class preference. Second conjunct: at capacity with every lastUsed equal
to the current clock value, nothing is evicted and the registry grows to
`MAX_SESSIONS + 1` entries, contradicting the claimed size bound. -/
theorem c2_counterexample :
    (mapHas (getSessionContext "auto_b_com" 400 (fun _ => true)
        ⟨[("default", ⟨0, 200⟩), ("default_5", ⟨1, 300⟩),
          ("auto_a_com", ⟨2, 100⟩)], 3⟩).2.sessions "auto_a_com" = false ∧
      mapHas (getSessionContext "auto_b_com" 400 (fun _ => true)
        ⟨[("default", ⟨0, 200⟩), ("default_5", ⟨1, 300⟩),
          ("auto_a_com", ⟨2, 100⟩)], 3⟩).2.sessions "default" = true ∧
      mapHas (getSessionContext "auto_b_com" 400 (fun _ => true)
        ⟨[("default", ⟨0, 200⟩), ("default_5", ⟨1, 300⟩),
          ("auto_a_com", ⟨2, 100⟩)], 3⟩).2.sessions "default_5" = true) ∧
    (getSessionContext "d" 100 (fun _ => true)
        ⟨[("a", ⟨0, 100⟩), ("b", ⟨1, 100⟩), ("c", ⟨2, 100⟩)], 3⟩).2.sessions.length =
      MAX_SESSIONS + 1 := by
  decide

/-- C4 counterexample: the key "default" is present with an idle-expired
entry (lastUsed 0 at clock 300001, past the 300000 ms default timeout)
whose page still answers the liveness probe; `getSessionContext`
nevertheless hands out a freshly created session (identity 1), not the
existing one (identity 0). -/
theorem c4_counterexample :
    mapGet [("default", (⟨0, 0⟩ : Session))] "default" = some ⟨0, 0⟩ ∧
    (getSessionContext "default" 300001 (fun _ => true)
        ⟨[("default", ⟨0, 0⟩)], 1⟩).1.sid = 1 := by
  decide

/-- C5: in the per-key `cleanup_resources` branch the registry delete
sits inside the try block after the awaited close, so when closing the
context throws, the teardown is attempted (the close of context 0 is
recorded) yet the registry entry for "default" survives, and the call
still reports success. -/
theorem c5_per_key_cleanup_leaves_entry_on_close_failure :
    cleanupResourcesTool (some "default") (fun _ => true)
        ⟨[("default", ⟨0, 0⟩)], true, []⟩ =
      (⟨[("default", ⟨0, 0⟩)], true, [0]⟩,
        "Browser resources cleaned up successfully") := by
  decide

/-- C6 counterexample: with no captured chart API data and no
engine-level fault, `extractHouseSigmaChartData` returns a failure
object carrying an error message, not a success with an empty payload. -/
theorem c6_counterexample :
    (extractHouseSigmaChartData ([] : List Nat) none).isSuccess = false ∧
    extractHouseSigmaChartData ([] : List Nat) none =
      .failure "No chart API data was captured" := by
  constructor <;> rfl

/-- C7 counterexample: on the stdio binding a failing `click_element`
action makes the tool handler raise a wrapped exception into the MCP SDK
layer instead of returning a structured failure result, so an exception
does cross the executor boundary into the gateway. -/
theorem c7_counterexample :
    callToolPipe "click_element" (.ok ()) (.error "Timeout 60000ms exceeded") =
      .error ("Tool execution failed: Timeout 60000ms exceeded") := rfl

/-- C8: an interleaving of two concurrent `getSessionContext "default"`
calls on an empty registry in which both run their existence check
before either reaches the `sessions.set` after the awaited context
creation. Both callers complete, holding distinct session objects
(identities 0 and 1) for the same key, and the registry retains only the
second: the exactly-one-shared-session contract is violated. -/
theorem c8_concurrent_duplicate_sessions :
    runSched "default" 100 (fun _ => true) ⟨⟨[], 0⟩, .start, .start⟩
        [.one, .two, .one, .two] =
      ⟨⟨[("default", ⟨1, 100⟩)], 2⟩, .done ⟨0, 100⟩, .done ⟨1, 100⟩⟩ ∧
    (⟨0, 100⟩ : Session) ≠ ⟨1, 100⟩ := by
  decide

/-- C1 amended: with at least two sessions, no truthy explicit key and
no truthy url, the resolver returns the key "default_" followed by the
current clock value; that key avoids every key in the registry provided
no stored key has exactly that form at the current clock value, and two
such resolutions agree only when their clock values print identically. -/
theorem c1_amended_mints_timestamp_key (args : ToolArgs) (tool : String)
    (sessions : Registry) (now : Nat)
    (hsid : strTruthy args.sessionId = false)
    (hurl : strTruthy args.url = false)
    (hlen : 2 ≤ sessions.length) :
    getSessionId args tool sessions now = "default_" ++ toString now ∧
    (mapHas sessions ("default_" ++ toString now) = false →
      mapHas sessions (getSessionId args tool sessions now) = false) ∧
    (∀ now2 : Nat,
      getSessionId args tool sessions now = getSessionId args tool sessions now2 →
      toString now = toString now2) := by
  have hkey : ∀ t : Nat, getSessionId args tool sessions t = "default_" ++ toString t := by
    intro t
    unfold getSessionId
    rw [if_neg (by simp [hsid]), if_neg (by simp [hurl]),
      if_neg (by simp only [beq_iff_eq]; omega),
      if_neg (by simp only [beq_iff_eq]; omega)]
  refine ⟨hkey now, ?_, ?_⟩
  · intro h
    rw [hkey now]
    exact h
  · intro now2 heq
    rw [hkey now, hkey now2] at heq
    exact string_append_cancel_left heq

/-- Witness for C1 amended at a two-session registry and clock value 7. -/
theorem c1_amended_witness :
    getSessionId ⟨none, none⟩ "get_page_content" [("a", ⟨0, 0⟩), ("b", ⟨1, 5⟩)] 7 =
      "default_" ++ toString 7 :=
  (c1_amended_mints_timestamp_key ⟨none, none⟩ "get_page_content"
    [("a", ⟨0, 0⟩), ("b", ⟨1, 5⟩)] 7 rfl rfl (by decide)).1

/-- C6 amended: an extract call is a success exactly when no engine
fault occurred and at least one chart API response was captured; with no
fault and nothing captured it is a failure carrying the fixed message,
not a success with an empty payload. -/
theorem c6_amended_empty_extraction_is_failure {α : Type} (captured : List α)
    (engineFault : Option String) :
    ((extractHouseSigmaChartData captured engineFault).isSuccess = true ↔
      engineFault = none ∧ captured ≠ []) ∧
    (engineFault = none → captured = [] →
      extractHouseSigmaChartData captured engineFault =
        .failure "No chart API data was captured") := by
  constructor
  · cases engineFault with
    | some msg => simp [extractHouseSigmaChartData, ExtractResult.isSuccess]
    | none =>
      cases hc : captured.getLast? with
      | none =>
        have : captured = [] := by
          cases captured with
          | nil => rfl
          | cons a l => simp [List.getLast?_eq_getLast] at hc
        simp [extractHouseSigmaChartData, hc, ExtractResult.isSuccess, this]
      | some x =>
        have : captured ≠ [] := by
          intro h
          rw [h] at hc
          simp at hc
        simp [extractHouseSigmaChartData, hc, ExtractResult.isSuccess, this]
  · intro hf hc
    subst hf
    subst hc
    rfl

/-- Witness for C6 amended: the empty-capture no-fault case. -/
theorem c6_amended_witness :
    extractHouseSigmaChartData ([] : List Nat) none =
      .failure "No chart API data was captured" :=
  (c6_amended_empty_extraction_is_failure ([] : List Nat) none).2 rfl rfl

/-- C7 amended: over the HTTP binding every tools/call produces exactly
one envelope, either a populated result with no error or an error object
with no result; over the stdio binding a failing action (any non-cleanup
tool) makes the handler rethrow the wrapped message, delegating the
error envelope to the protocol SDK layer. -/
theorem c7_amended_envelope_policy (name : String) (sessionAcq : Except String Unit)
    (action : Except String String) (id : Nat) :
    (((callToolHttp name sessionAcq action id).result.isSome = true ∧
        (callToolHttp name sessionAcq action id).error = none) ∨
      ((callToolHttp name sessionAcq action id).result = none ∧
        (callToolHttp name sessionAcq action id).error.isSome = true)) ∧
    (name ≠ "cleanup_resources" → ∀ msg, action = .error msg →
      callToolPipe name (.ok ()) action = .error ("Tool execution failed: " ++ msg)) := by
  constructor
  · by_cases hn : name = "cleanup_resources"
    · subst hn
      left
      simp [callToolHttp]
    · have hb : (name == "cleanup_resources") = false := beq_eq_false_iff_ne.mpr hn
      cases sessionAcq with
      | error msg =>
        right
        simp [callToolHttp, hb]
      | ok u =>
        cases action with
        | ok out =>
          left
          simp [callToolHttp, hb]
        | error msg =>
          right
          simp [callToolHttp, hb]
  · intro hn msg hac
    subst hac
    have hb : (name == "cleanup_resources") = false := beq_eq_false_iff_ne.mpr hn
    simp [callToolPipe, hb]

/-- Witness for C7 amended: a concrete failing click action on the stdio
binding. -/
theorem c7_amended_witness :
    callToolPipe "click_element" (Except.ok ()) (Except.error "Timeout") =
      Except.error ("Tool execution failed: " ++ "Timeout") :=
  (c7_amended_envelope_policy "click_element" (Except.ok ())
    (Except.error "Timeout") 1).2 (by decide) "Timeout" rfl

theorem getSessionContext_of_get_some {st : RegState} {key : String} {now : Nat}
    {probe : Nat → Bool} {s : Session}
    (hgetc : mapGet (cleanupExpiredSessions st.sessions now) key = some s) :
    getSessionContext key now probe st =
      if probe s.sid then
        (⟨s.sid, now⟩,
          ⟨mapSet (cleanupExpiredSessions st.sessions now) key ⟨s.sid, now⟩,
            st.nextSid⟩)
      else
        createNewSession key now
          ⟨mapDelete (cleanupExpiredSessions st.sessions now) key, st.nextSid⟩ := by
  simp only [getSessionContext]
  rw [hgetc]

theorem getSessionContext_of_get_none {st : RegState} {key : String} {now : Nat}
    {probe : Nat → Bool}
    (hn : mapGet (cleanupExpiredSessions st.sessions now) key = none) :
    getSessionContext key now probe st =
      createNewSession key now ⟨cleanupExpiredSessions st.sessions now, st.nextSid⟩ := by
  simp only [getSessionContext]
  rw [hn]

/-- C4 amended: for every key present in the registry whose session is
not idle-expired at the time of the call, `getSessionContext` returns
the existing session object (same identity) with `lastUsed` updated to
the current clock value when the liveness probe succeeds, and when the
probe fails it discards the entry and stores a freshly created session
(the next identity) under the same key; either way `lastUsed` of the
session handed out is the current clock value. -/
theorem c4_amended_reuse_or_recreate (st : RegState) (key : String) (s : Session)
    (now : Nat) (probe : Nat → Bool)
    (hget : mapGet st.sessions key = some s)
    (hexp : isExpired now key s = false) :
    (probe s.sid = true →
      (getSessionContext key now probe st).1 = ⟨s.sid, now⟩ ∧
      mapGet (getSessionContext key now probe st).2.sessions key = some ⟨s.sid, now⟩ ∧
      (getSessionContext key now probe st).2.nextSid = st.nextSid) ∧
    (probe s.sid = false →
      (getSessionContext key now probe st).1 = ⟨st.nextSid, now⟩ ∧
      mapGet (getSessionContext key now probe st).2.sessions key =
        some ⟨st.nextSid, now⟩ ∧
      (getSessionContext key now probe st).2.nextSid = st.nextSid + 1) := by
  have hgetc : mapGet (cleanupExpiredSessions st.sessions now) key = some s :=
    mapGet_filter hget (by simp [hexp])
  have hsplit := @getSessionContext_of_get_some st key now probe s hgetc
  constructor
  · intro hp
    rw [hsplit, if_pos hp]
    exact ⟨rfl, mapGet_mapSet_self _ _ _, rfl⟩
  · intro hp
    rw [hsplit, if_neg (by simp [hp])]
    exact ⟨rfl, mapGet_mapSet_self _ _ _, rfl⟩

/-- Witness for C4 amended: a live, unexpired "default" session is
reused with its timestamp refreshed. -/
theorem c4_amended_witness :
    (getSessionContext "default" 20 (fun _ => true)
      ⟨[("default", ⟨0, 10⟩)], 1⟩).1 = ⟨0, 20⟩ :=
  ((c4_amended_reuse_or_recreate ⟨[("default", ⟨0, 10⟩)], 1⟩ "default" ⟨0, 10⟩ 20
    (fun _ => true) (by decide) (by decide)).1 rfl).1

/-- C2 amended: at the configured maximum with no expired entries and a
fresh key, when at least one existing session was last used strictly
before the current clock value, `getSessionContext` first removes
exactly one existing session — a globally least-recently-used one,
regardless of class — and the registry size stays at the maximum; when
every existing session has `lastUsed` at or beyond the current clock
value, nothing is evicted and the registry grows to one past the
maximum. -/
theorem c2_amended_global_lru_eviction (st : RegState) (now : Nat) (key : String)
    (probe : Nat → Bool)
    (hnd : keysNodup st.sessions)
    (habs : mapHas st.sessions key = false)
    (hexp : ∀ p ∈ st.sessions, isExpired now p.1 p.2 = false)
    (hlen : st.sessions.length = MAX_SESSIONS) :
    ((∃ p ∈ st.sessions, p.2.lastUsed < now) →
      ∃ k s, (k, s) ∈ st.sessions ∧ s.lastUsed < now ∧
        (∀ q ∈ st.sessions, s.lastUsed ≤ q.2.lastUsed) ∧
        (getSessionContext key now probe st).2.sessions =
          mapDelete st.sessions k ++ [(key, ⟨st.nextSid, now⟩)] ∧
        (getSessionContext key now probe st).2.sessions.length = MAX_SESSIONS) ∧
    ((∀ p ∈ st.sessions, now ≤ p.2.lastUsed) →
      (getSessionContext key now probe st).2.sessions =
        st.sessions ++ [(key, ⟨st.nextSid, now⟩)] ∧
      (getSessionContext key now probe st).2.sessions.length = MAX_SESSIONS + 1) := by
  have hclean : cleanupExpiredSessions st.sessions now = st.sessions :=
    cleanup_of_no_expired hexp
  have hnone : mapGet (cleanupExpiredSessions st.sessions now) key = none := by
    rw [hclean]
    exact mapGet_eq_none_of_not_has habs
  have hmain : getSessionContext key now probe st =
      createNewSession key now ⟨st.sessions, st.nextSid⟩ := by
    rw [getSessionContext_of_get_none hnone, hclean]
  have hcap : MAX_SESSIONS ≤ st.sessions.length := hlen.ge
  constructor
  · rintro ⟨p₀, hp₀, hlt₀⟩
    obtain ⟨k, s, hmem, hfind, hlt, hmin⟩ := findOldest_min hp₀ hlt₀
    have hdel : enforceSessionLimits st.sessions now = mapDelete st.sessions k := by
      unfold enforceSessionLimits
      rw [if_pos hcap, hfind]
    have hsess : (getSessionContext key now probe st).2.sessions =
        mapDelete st.sessions k ++ [(key, ⟨st.nextSid, now⟩)] := by
      rw [hmain]
      show mapSet (enforceSessionLimits st.sessions now) key ⟨st.nextSid, now⟩ = _
      rw [hdel]
      exact mapSet_append_of_not_has _ (mapHas_filter_false habs)
    have h1 : (mapDelete st.sessions k).length + 1 = st.sessions.length :=
      mapDelete_length hnd (mapHas_of_mem hmem)
    have hlenf : (getSessionContext key now probe st).2.sessions.length =
        MAX_SESSIONS := by
      rw [hsess, List.length_append]
      simp only [List.length_cons, List.length_nil]
      omega
    exact ⟨k, s, hmem, hlt, hmin, hsess, hlenf⟩
  · intro hall
    have hfind : findOldest st.sessions now = none := findOldest_eq_none hall
    have hid : enforceSessionLimits st.sessions now = st.sessions := by
      unfold enforceSessionLimits
      rw [if_pos hcap, hfind]
    have hsess : (getSessionContext key now probe st).2.sessions =
        st.sessions ++ [(key, ⟨st.nextSid, now⟩)] := by
      rw [hmain]
      show mapSet (enforceSessionLimits st.sessions now) key ⟨st.nextSid, now⟩ = _
      rw [hid]
      exact mapSet_append_of_not_has _ habs
    refine ⟨hsess, ?_⟩
    rw [hsess, List.length_append]
    simp [hlen]

/-- Witness for C2 amended: three unexpired sessions at capacity, all
older than the clock value, and a fresh key; the resulting registry size
is exactly the maximum. -/
theorem c2_amended_witness :
    (getSessionContext "d" 100 (fun _ => true)
      ⟨[("a", ⟨0, 50⟩), ("b", ⟨1, 60⟩), ("c", ⟨2, 70⟩)], 3⟩).2.sessions.length =
      MAX_SESSIONS := by
  obtain ⟨k, s, hmem, hlt, hmin, heq, hlenf⟩ :=
    (c2_amended_global_lru_eviction
      ⟨[("a", ⟨0, 50⟩), ("b", ⟨1, 60⟩), ("c", ⟨2, 70⟩)], 3⟩ 100 "d" (fun _ => true)
      (by unfold keysNodup; decide) (by decide) (by decide) (by decide)).1
      ⟨("a", ⟨0, 50⟩), by decide, by decide⟩
  exact hlenf
